import Mathlib

/-!
Verification of the evmapy configuration subsystem (`evmapy/config.py`)
against its natural-language specification.

Python strings are modelled as lists of characters (`PyStr`), Python
dictionaries of fixed shape as structures, and the dynamic event map
dictionary as an association list with last-assignment-wins lookup,
matching Python dict assignment semantics.  Machine-level concerns do not
arise: Python integers are unbounded, so `Nat`/`Int` model them exactly.
-/

/-- Python strings, modelled as lists of characters. -/
abbrev PyStr := List Char

/-- The hysteresis latch state stored under the `'state'` key of an axis
endpoint action (`'up'` / `'down'` strings in Python). -/
inductive LatchState where
  | up
  | down
deriving DecidableEq, Repr

/-- An action as it appears in a configuration dictionary before `parse`
processes it: the `trigger`, `type` and `target` fields, plus the
optional `value` field carried only by axis endpoint actions. -/
structure ActionIn where
  trigger : PyStr
  type : PyStr
  target : PyStr
  value : Option Int
deriving DecidableEq, Repr

/-- An action after `parse` has processed it: the input fields plus the
`id` assigned from the running counter (config.py line 230 / 235) and,
for axis endpoints, the `state` key set at line 237 (buttons never
receive a `state` key, modelled as `none`). -/
structure ActionOut where
  trigger : PyStr
  type : PyStr
  target : PyStr
  value : Option Int
  id : Nat
  state : Option LatchState
deriving DecidableEq, Repr

/-- Build the processed action from the configured one: Python mutates the
action dictionary in place, adding `id` (and `state` for axis limits). -/
def mkActionOut (a : ActionIn) (i : Nat) (st : Option LatchState) : ActionOut :=
  { trigger := a.trigger, type := a.type, target := a.target,
    value := a.value, id := i, state := st }

/-- One element of a configuration's `buttons` list. -/
structure ButtonConf where
  «alias» : PyStr
  code : Nat
  press : ActionIn
deriving DecidableEq, Repr

/-- One element of a configuration's `axes` list. -/
structure AxisConf where
  «alias» : PyStr
  code : Nat
  min : ActionIn
  max : ActionIn
deriving DecidableEq, Repr

/-- A configuration dictionary with the three keys `parse` reads:
`grab`, `buttons` and `axes` (config.py lines 227-239). -/
structure Config where
  grab : Bool
  buttons : List ButtonConf
  axes : List AxisConf
deriving DecidableEq, Repr

/-- An entry of the event map produced by `parse`: either a button
dictionary (with its processed `press` action) or an axis dictionary
(with its processed `min` and `max` actions). -/
inductive Entry where
  | button (al : PyStr) (code : Nat) (press : ActionOut)
  | axis (al : PyStr) (code : Nat) (min max : ActionOut)
deriving DecidableEq, Repr

/-- The event map returned by `parse`: the `'grab'` key plus the integer
keyed entries, kept in insertion order.  Python dict assignment
`eventmap[code] = ...` overwrites, so lookup is last-assignment-wins
(see `emLookup`). -/
structure EventMap where
  grab : Bool
  entries : List (Nat × Entry)
deriving DecidableEq, Repr

/-- The button loop of `parse` (config.py lines 229-232): each button's
`press` action receives the current counter value as its `id`, the
counter is incremented, and the button is keyed by its `code`.  Returns
the produced entries together with the final counter value. -/
def parseButtons : List ButtonConf → Nat → List (Nat × Entry) × Nat
  | [], n => ([], n)
  | b :: bs, n =>
    let e : Nat × Entry := (b.code, Entry.button b.alias b.code (mkActionOut b.press n none))
    let r := parseButtons bs (n + 1)
    (e :: r.1, r.2)

/-- The axis loop of `parse` (config.py lines 233-239): for each axis, the
`min` limit then the `max` limit receive consecutive counter values as
`id` and have their `state` set to `'up'`; the axis is keyed by its
`code`. -/
def parseAxes : List AxisConf → Nat → List (Nat × Entry) × Nat
  | [], n => ([], n)
  | a :: axs, n =>
    let e : Nat × Entry :=
      (a.code, Entry.axis a.alias a.code
        (mkActionOut a.min n (some LatchState.up))
        (mkActionOut a.max (n + 1) (some LatchState.up)))
    let r := parseAxes axs (n + 2)
    (e :: r.1, r.2)

/-- `parse` (config.py lines 211-240): transform a configuration
dictionary into an event map, threading the local `current_id` counter
starting at 0 through all buttons and then all axes. -/
def parse (c : Config) : EventMap :=
  let b := parseButtons c.buttons 0
  let a := parseAxes c.axes b.2
  { grab := c.grab, entries := b.1 ++ a.1 }

/-- Lookup in the event map's integer-keyed part with Python dict
semantics: a later assignment to the same key overwrites an earlier
one. -/
def emLookup : List (Nat × Entry) → Nat → Option Entry
  | [], _ => none
  | (c, e) :: rest, k =>
    match emLookup rest k with
    | some r => some r
    | none => if c = k then some e else none

/-- The action ids carried by one entry, `min` before `max` for axes. -/
def entryIds : Entry → List Nat
  | Entry.button _ _ press => [press.id]
  | Entry.axis _ _ mn mx => [mn.id, mx.id]

/-- All action ids of an event map, in entry order (buttons in list
order first, then axes, `min` endpoint before `max` endpoint). -/
def allocatedIds (em : EventMap) : List Nat :=
  em.entries.flatMap (fun p => entryIds p.2)

/-- Pair each list element with its index, starting from `n` (proof
helper for the closed forms of the parse loops). -/
def enumFrom0 : Nat → List α → List (Nat × α)
  | _, [] => []
  | n, a :: as0 => (n, a) :: enumFrom0 (n + 1) as0

/-- Pair each list element with an index advancing by 2, starting from
`n` (proof helper for the axis loop, whose counter advances by 2). -/
def enumBy2 : Nat → List α → List (Nat × α)
  | _, [] => []
  | n, a :: as0 => (n, a) :: enumBy2 (n + 2) as0

theorem parseButtons_eq (bs : List ButtonConf) (n : Nat) :
    parseButtons bs n =
      ((enumFrom0 n bs).map
        (fun p => (p.2.code, Entry.button p.2.alias p.2.code (mkActionOut p.2.press p.1 none))),
       n + bs.length) := by
  induction bs generalizing n with
  | nil => simp [parseButtons, enumFrom0]
  | cons b bs ih =>
    simp [parseButtons, enumFrom0, ih]
    omega

theorem parseAxes_eq (axs : List AxisConf) (n : Nat) :
    parseAxes axs n =
      ((enumBy2 n axs).map
        (fun p => (p.2.code, Entry.axis p.2.alias p.2.code
          (mkActionOut p.2.min p.1 (some LatchState.up))
          (mkActionOut p.2.max (p.1 + 1) (some LatchState.up)))),
       n + 2 * axs.length) := by
  induction axs generalizing n with
  | nil => simp [parseAxes, enumBy2]
  | cons a axs ih =>
    simp [parseAxes, enumBy2, ih]
    omega

theorem enumFrom0_map_fst (l : List α) (n : Nat) :
    (enumFrom0 n l).map Prod.fst = List.range' n l.length := by
  induction l generalizing n with
  | nil => simp [enumFrom0]
  | cons a l ih => simp [enumFrom0, List.range'_succ, ih]

theorem enumBy2_bind_pair (l : List α) (n : Nat) :
    ((enumBy2 n l).flatMap (fun p => [p.1, p.1 + 1])) = List.range' n (2 * l.length) := by
  induction l generalizing n with
  | nil => simp [enumBy2]
  | cons a l ih =>
    have h2 : 2 * (l.length + 1) = 2 * l.length + 1 + 1 := by omega
    simp only [enumBy2, List.flatMap_cons, List.length_cons, h2, List.range'_succ]
    simp [ih]

theorem enumFrom0_bind_fst (l : List α) (n : Nat) :
    ((enumFrom0 n l).flatMap fun p => [p.1]) = List.range' n l.length := by
  induction l generalizing n with
  | nil => simp [enumFrom0]
  | cons a l ih => simp [enumFrom0, List.range'_succ, ih]

theorem allocatedIds_parse (c : Config) :
    allocatedIds (parse c) = List.range (c.buttons.length + 2 * c.axes.length) := by
  simp only [allocatedIds, parse, parseButtons_eq, parseAxes_eq, List.flatMap_append,
    List.flatMap_map, entryIds, mkActionOut]
  rw [enumFrom0_bind_fst, enumBy2_bind_pair, List.range_eq_range']
  have h := List.range'_append_1 0 c.buttons.length (2 * c.axes.length)
  simpa [Nat.add_comm] using h

/-- Claim C2: `parse` assigns each button press action and each axis
min/max action an integer id that is unique within the returned event
map, allocated monotonically by a counter local to the call starting at
0 — all buttons in list order first, then for each axis its min endpoint
followed by its max endpoint — so the ids listed in allocation order are
exactly `0, 1, ..., n-1` and ids of two distinct actions never
coincide. -/
theorem parse_ids_unique (c : Config) :
    allocatedIds (parse c) = List.range (c.buttons.length + 2 * c.axes.length) ∧
    (allocatedIds (parse c)).Nodup := by
  refine ⟨allocatedIds_parse c, ?_⟩
  rw [allocatedIds_parse c]
  exact List.nodup_range _

theorem emLookup_append_some (xs ys : List (Nat × Entry)) (k : Nat) (e : Entry)
    (h : emLookup ys k = some e) : emLookup (xs ++ ys) k = some e := by
  induction xs with
  | nil => simpa using h
  | cons p xs ih =>
    obtain ⟨c, x⟩ := p
    simp [List.append_eq, emLookup, ih]

theorem emLookup_append_none (xs ys : List (Nat × Entry)) (k : Nat)
    (h : emLookup ys k = none) : emLookup (xs ++ ys) k = emLookup xs k := by
  induction xs with
  | nil => simpa using h
  | cons p xs ih =>
    obtain ⟨c, x⟩ := p
    simp [List.append_eq, emLookup, ih]

theorem emLookup_isSome (m : List (Nat × Entry)) (k : Nat) :
    (emLookup m k).isSome = true ↔ k ∈ m.map Prod.fst := by
  induction m with
  | nil => simp [emLookup]
  | cons p m ih =>
    obtain ⟨c, e⟩ := p
    simp only [emLookup, List.map_cons, List.mem_cons]
    cases h : emLookup m k with
    | some r =>
      rw [h] at ih
      simp only [Option.isSome_some, true_iff] at ih ⊢
      exact Or.inr ih
    | none =>
      rw [h] at ih
      simp only [Option.isSome_none, Bool.false_eq_true, false_iff] at ih
      by_cases hc : c = k
      · subst hc
        simp
      · have : ¬ k = c := fun hh => hc hh.symm
        simp [hc, ih, this]

theorem emLookup_eq_none (m : List (Nat × Entry)) (k : Nat) :
    emLookup m k = none ↔ k ∉ m.map Prod.fst := by
  rw [← emLookup_isSome m k]
  cases emLookup m k <;> simp

theorem emLookup_of_nodup (m : List (Nat × Entry)) (k : Nat) (e : Entry)
    (hn : (m.map Prod.fst).Nodup) (hm : (k, e) ∈ m) : emLookup m k = some e := by
  induction m with
  | nil => simp at hm
  | cons p m ih =>
    obtain ⟨c, x⟩ := p
    simp only [List.map_cons, List.nodup_cons] at hn
    rcases List.mem_cons.1 hm with h | h
    · rw [Prod.ext_iff] at h
      obtain ⟨h1, h2⟩ := h
      simp only at h1 h2
      subst h1
      subst h2
      have hnone : emLookup m k = none := (emLookup_eq_none m k).2 hn.1
      simp [emLookup, hnone]
    · have hs := ih hn.2 h
      simp [emLookup, hs]

theorem enumFrom0_getElem (l : List α) (n i : Nat) :
    (enumFrom0 n l)[i]? = l[i]?.map (fun a => (n + i, a)) := by
  induction l generalizing n i with
  | nil => simp [enumFrom0]
  | cons a l ih =>
    cases i with
    | zero => simp [enumFrom0]
    | succ j =>
      simp only [enumFrom0, List.getElem?_cons_succ, ih]
      cases l[j]? <;> simp <;> omega

theorem enumBy2_getElem (l : List α) (n j : Nat) :
    (enumBy2 n l)[j]? = l[j]?.map (fun a => (n + 2 * j, a)) := by
  induction l generalizing n j with
  | nil => simp [enumBy2]
  | cons a l ih =>
    cases j with
    | zero => simp [enumBy2]
    | succ i =>
      simp only [enumBy2, List.getElem?_cons_succ, ih]
      cases l[i]? <;> simp <;> omega

theorem parse_entries (c : Config) :
    (parse c).entries =
      ((enumFrom0 0 c.buttons).map
        (fun p => (p.2.code, Entry.button p.2.alias p.2.code (mkActionOut p.2.press p.1 none)))) ++
      ((enumBy2 c.buttons.length c.axes).map
        (fun p => (p.2.code, Entry.axis p.2.alias p.2.code
          (mkActionOut p.2.min p.1 (some LatchState.up))
          (mkActionOut p.2.max (p.1 + 1) (some LatchState.up))))) := by
  simp [parse, parseButtons_eq, parseAxes_eq]

theorem parse_codes (c : Config) :
    (parse c).entries.map Prod.fst =
      c.buttons.map ButtonConf.code ++ c.axes.map AxisConf.code := by
  have hB : ∀ (bs : List ButtonConf) (n : Nat),
      ((enumFrom0 n bs).map
        (fun p => (p.2.code, Entry.button p.2.alias p.2.code
          (mkActionOut p.2.press p.1 none)))).map Prod.fst = bs.map ButtonConf.code := by
    intro bs
    induction bs with
    | nil => intro n; simp [enumFrom0]
    | cons b bs ih => intro n; simp [enumFrom0, ih]
  have hA : ∀ (axs : List AxisConf) (n : Nat),
      ((enumBy2 n axs).map
        (fun p => (p.2.code, Entry.axis p.2.alias p.2.code
          (mkActionOut p.2.min p.1 (some LatchState.up))
          (mkActionOut p.2.max (p.1 + 1) (some LatchState.up))))).map Prod.fst =
        axs.map AxisConf.code := by
    intro axs
    induction axs with
    | nil => intro n; simp [enumBy2]
    | cons a axs ih => intro n; simp [enumBy2, ih]
  rw [parse_entries, List.map_append, hB, hA]

theorem parse_grab (c : Config) : (parse c).grab = c.grab := rfl

/-- Claim C4 (amended with pairwise-distinct event codes): the event map
returned by `parse` has its `grab` key equal to the configuration's grab
flag; provided the event codes listed across buttons and axes are
pairwise distinct, every listed button and axis is found under its own
code, mapped to its processed descriptor, and a code is present in the
map exactly when it is listed in the configuration. -/
theorem parse_eventmap (c : Config)
    (hd : (c.buttons.map ButtonConf.code ++ c.axes.map AxisConf.code).Nodup) :
    (parse c).grab = c.grab
    ∧ (∀ i b, c.buttons[i]? = some b →
        emLookup (parse c).entries b.code =
          some (Entry.button b.alias b.code (mkActionOut b.press i none)))
    ∧ (∀ j a, c.axes[j]? = some a →
        emLookup (parse c).entries a.code =
          some (Entry.axis a.alias a.code
            (mkActionOut a.min (c.buttons.length + 2 * j) (some LatchState.up))
            (mkActionOut a.max (c.buttons.length + 2 * j + 1) (some LatchState.up))))
    ∧ (∀ k, (emLookup (parse c).entries k).isSome = true ↔
        k ∈ c.buttons.map ButtonConf.code ++ c.axes.map AxisConf.code) := by
  have hn : ((parse c).entries.map Prod.fst).Nodup := by
    rw [parse_codes]
    exact hd
  refine ⟨parse_grab c, ?_, ?_, ?_⟩
  · intro i b hi
    apply emLookup_of_nodup _ _ _ hn
    rw [parse_entries]
    apply List.mem_append_left
    apply List.getElem?_mem (n := i)
    rw [List.getElem?_map, enumFrom0_getElem, hi]
    simp
  · intro j a hj
    apply emLookup_of_nodup _ _ _ hn
    rw [parse_entries]
    apply List.mem_append_right
    apply List.getElem?_mem (n := j)
    rw [List.getElem?_map, enumBy2_getElem, hj]
    simp
  · intro k
    rw [emLookup_isSome, parse_codes]

/-- A configuration whose two buttons share the event code 5 but carry
different aliases and targets. -/
def dupConfig : Config :=
  { grab := false,
    buttons :=
      [ { «alias» := ['a'], code := 5,
          press := { trigger := ['n'], type := ['e'], target := ['x'], value := none } },
        { «alias» := ['b'], code := 5,
          press := { trigger := ['n'], type := ['e'], target := ['y'], value := none } } ],
    axes := [] }

/-- Claim C4 as stated is false without a distinctness assumption: in
`dupConfig` both buttons list event code 5, the second assignment
overwrites the first, and the map holds no entry for the first button's
descriptor. -/
theorem parse_eventmap_counterexample :
    emLookup (parse dupConfig).entries 5 ≠
      some (Entry.button ['a'] 5
        (mkActionOut { trigger := ['n'], type := ['e'], target := ['x'], value := none } 0 none)) := by
  decide

/-- A small configuration with one button (code 7) and one axis (code 9),
all codes distinct. -/
def smallConfig : Config :=
  { grab := true,
    buttons :=
      [ { «alias» := ['b'], code := 7,
          press := { trigger := ['n'], type := ['e'], target := ['t'], value := none } } ],
    axes :=
      [ { «alias» := ['x'], code := 9,
          min := { trigger := ['n'], type := ['e'], target := ['m'], value := some 0 },
          max := { trigger := ['n'], type := ['e'], target := ['M'], value := some 255 } } ] }

theorem parse_eventmap_witness :
    emLookup (parse smallConfig).entries 7 =
      some (Entry.button ['b'] 7
        (mkActionOut { trigger := ['n'], type := ['e'], target := ['t'], value := none } 0 none)) :=
  (parse_eventmap smallConfig (by decide)).2.1 0
    { «alias» := ['b'], code := 7,
      press := { trigger := ['n'], type := ['e'], target := ['t'], value := none } }
    (by decide)

/-- Claim C6: `parse` initializes the hysteresis latch state of every
axis endpoint (both `min` and `max` of every axis entry) to `'up'` at
load time, and adds no such latch state to button entries (a button's
`press` action carries no `state` key). -/
theorem parse_latch_init (c : Config) (k : Nat) (e : Entry)
    (h : (k, e) ∈ (parse c).entries) :
    (∀ al code press, e = Entry.button al code press → press.state = none) ∧
    (∀ al code mn mx, e = Entry.axis al code mn mx →
      mn.state = some LatchState.up ∧ mx.state = some LatchState.up) := by
  rw [parse_entries] at h
  rcases List.mem_append.1 h with hb | ha
  · obtain ⟨p, _, hp⟩ := List.mem_map.1 hb
    have he : e = Entry.button p.2.alias p.2.code (mkActionOut p.2.press p.1 none) :=
      congrArg Prod.snd hp.symm
    subst he
    constructor
    · intro al code press hpr
      cases hpr
      rfl
    · intro al code mn mx hax
      cases hax
  · obtain ⟨p, _, hp⟩ := List.mem_map.1 ha
    have he : e = Entry.axis p.2.alias p.2.code
        (mkActionOut p.2.min p.1 (some LatchState.up))
        (mkActionOut p.2.max (p.1 + 1) (some LatchState.up)) :=
      congrArg Prod.snd hp.symm
    subst he
    constructor
    · intro al code press hpr
      cases hpr
    · intro al code mn mx hax
      cases hax
      exact ⟨rfl, rfl⟩

/-- A configuration with a single axis (code 3). -/
def axisConfig : Config :=
  { grab := false,
    buttons := [],
    axes :=
      [ { «alias» := ['z'], code := 3,
          min := { trigger := ['n'], type := ['e'], target := ['m'], value := some 0 },
          max := { trigger := ['n'], type := ['e'], target := ['M'], value := some 100 } } ] }

theorem parse_latch_init_witness :
    (mkActionOut { trigger := ['n'], type := ['e'], target := ['m'], value := some 0 }
        0 (some LatchState.up)).state = some LatchState.up ∧
    (mkActionOut { trigger := ['n'], type := ['e'], target := ['M'], value := some 100 }
        1 (some LatchState.up)).state = some LatchState.up :=
  (parse_latch_init axisConfig 3
    (Entry.axis ['z'] 3
      (mkActionOut { trigger := ['n'], type := ['e'], target := ['m'], value := some 0 }
        0 (some LatchState.up))
      (mkActionOut { trigger := ['n'], type := ['e'], target := ['M'], value := some 100 }
        1 (some LatchState.up)))
    (by decide)).2 ['z'] 3 _ _ rfl

/-- `os.path.basename` on POSIX: the part of the path after the last
separator (`posixpath.basename`: `p[p.rfind(sep) + 1:]`), realized as a
left fold that restarts the accumulator at each `'/'`. -/
def pyBasename (s : PyStr) : PyStr :=
  s.foldl (fun acc c => if c = '/' then [] else acc ++ [c]) []

/-- `os.path.join` on POSIX with two components: an absolute second
component replaces the first; otherwise the separator is inserted
unless the first component is empty or already ends with it. -/
def pyJoin (a b : PyStr) : PyStr :=
  if b.head? = some '/' then b
  else if a = [] ∨ a.getLast? = some '/' then a ++ b
  else a ++ '/' :: b

/-- The character class `\w` of Python's `re` module, restricted to the
ASCII fragment: letters, digits and the underscore. -/
def isWordChar (c : Char) : Bool :=
  c.isAlphanum || c = '_'

/-- `re.sub(r'[^\w]', '.', s)` (config.py line 75): every non-word
character is replaced by a dot. -/
def pySubNonWord (s : PyStr) : PyStr :=
  s.map (fun c => if isWordChar c then c else '.')

/-- `_get_device_config_path` (config.py lines 62-76): the default
configuration path for a device joins the configuration directory with
the device name, every non-word character replaced by `'.'`, suffixed
`'.json'`. -/
def get_device_config_path (configDir deviceName : PyStr) : PyStr :=
  pyJoin configDir (pySubNonWord deviceName ++ ".json".data)

/-- The path `load` reads (config.py lines 182-186): a non-empty name is
resolved to the configuration directory joined with the name's basename;
an empty name resolves to the device's default configuration path. -/
def loadPath (configDir deviceName name : PyStr) : PyStr :=
  if name ≠ [] then pyJoin configDir (pyBasename name)
  else get_device_config_path configDir deviceName

theorem pyBasename_foldl_no_slash (s : PyStr) :
    ∀ acc : PyStr, '/' ∉ acc →
      '/' ∉ s.foldl (fun acc c => if c = '/' then [] else acc ++ [c]) acc := by
  induction s with
  | nil =>
    intro acc h
    simpa using h
  | cons c s ih =>
    intro acc h
    simp only [List.foldl_cons]
    by_cases hc : c = '/'
    · apply ih
      simp [hc]
    · apply ih
      simp [hc, h]
      intro hcontra
      exact hc hcontra.symm

theorem pyBasename_no_slash (s : PyStr) : '/' ∉ pyBasename s :=
  pyBasename_foldl_no_slash s [] (by simp)

/-- Claim C1: for a non-empty configuration name, `load` resolves the
file to read by joining the configuration directory with the basename of
the name; a name containing directory separators is not rejected but
treated as a request for the same-named file inside the configuration
directory, and the resolved path stays inside that directory: it is the
directory, the separator, and a single component free of separators. -/
theorem load_name_basename (configDir deviceName name : PyStr)
    (hname : name ≠ []) :
    loadPath configDir deviceName name = pyJoin configDir (pyBasename name)
    ∧ '/' ∉ pyBasename name
    ∧ (configDir ≠ [] → configDir.getLast? ≠ some '/' →
        loadPath configDir deviceName name = configDir ++ '/' :: pyBasename name)
    ∧ (pyBasename name ≠ [] →
        loadPath configDir deviceName name =
          loadPath configDir deviceName (pyBasename name)) := by
  have hres : loadPath configDir deviceName name = pyJoin configDir (pyBasename name) := by
    simp [loadPath, hname]
  have hns := pyBasename_no_slash name
  refine ⟨hres, hns, ?_, ?_⟩
  · intro hdir hlast
    rw [hres]
    have hhead : (pyBasename name).head? ≠ some '/' := by
      intro hh
      obtain ⟨ys, hys⟩ := List.head?_eq_some_iff.1 hh
      exact hns (hys ▸ List.mem_cons_self '/' ys)
    simp only [pyJoin]
    rw [if_neg hhead, if_neg (by simp [hdir, hlast])]
  · intro hbn
    have hid : pyBasename (pyBasename name) = pyBasename name := by
      have : ∀ t : PyStr, '/' ∉ t → ∀ acc : PyStr,
          t.foldl (fun acc c => if c = '/' then [] else acc ++ [c]) acc = acc ++ t := by
        intro t
        induction t with
        | nil => intro _ acc; simp
        | cons c t ih =>
          intro h acc
          simp only [List.mem_cons, not_or] at h
          have hcne : ¬ c = '/' := fun hc => h.1 hc.symm
          simp only [List.foldl_cons, if_neg hcne]
          rw [ih h.2]
          simp
      have h2 := this (pyBasename name) hns []
      simpa [pyBasename] using h2
    simp [loadPath, hname, hbn, hid]

theorem load_name_basename_witness :
    loadPath ['c'] [] ['.', '.', '/', 'e'] = ['c', '/', 'e'] ∧
    '/' ∉ pyBasename ['.', '.', '/', 'e'] := by
  have h := load_name_basename ['c'] [] ['.', '.', '/', 'e'] (by decide)
  refine ⟨?_, h.2.1⟩
  rw [h.2.2.1 (by decide) (by decide)]
  decide

/-- Claim C5: with an empty (or absent) configuration name, `load`
resolves the default configuration path deterministically from the
device name: the configuration directory joined with the device name in
which every non-word character is replaced by `'.'`, with `'.json'`
appended. -/
theorem load_default_path (configDir deviceName : PyStr) :
    loadPath configDir deviceName [] =
      pyJoin configDir (pySubNonWord deviceName ++ ".json".data)
    ∧ (pySubNonWord deviceName).length = deviceName.length
    ∧ (∀ (i : Nat) (c : Char), deviceName[i]? = some c →
        (pySubNonWord deviceName)[i]? =
          some (if isWordChar c = true then c else '.')) := by
  refine ⟨rfl, by simp [pySubNonWord], ?_⟩
  intro i c hc
  simp [pySubNonWord, hc]

theorem load_default_path_witness :
    loadPath ['d'] ['A', ' ', 'b'] [] =
      ['d', '/', 'A', '.', 'b', '.', 'j', 's', 'o', 'n'] ∧
    (pySubNonWord ['A', ' ', 'b'])[1]? = some '.' := by
  constructor
  · rw [(load_default_path ['d'] ['A', ' ', 'b']).1]
    decide
  · have h := (load_default_path ['d'] ['A', ' ', 'b']).2.2 1 ' ' (by decide)
    simpa using h

/-- The Python exceptions that can escape `read`/`parse`: a missing
file, malformed JSON (`json` raises a `ValueError` subclass), a missing
dictionary key, or anything else, each with the payload its `str` form
is built from. -/
inductive PyExc where
  | fileNotFound
  | valueError (msg : PyStr)
  | keyError (key : PyStr)
  | other (msg : PyStr)
deriving DecidableEq, Repr

/-- `str(exc)`: a `ValueError`'s message, a `KeyError`'s key in quotes,
an arbitrary exception's message (`str(FileNotFoundError())` is empty
and is never consulted by `ConfigError`). -/
def pyExcStr : PyExc → PyStr
  | PyExc.fileNotFound => []
  | PyExc.valueError m => m
  | PyExc.keyError k => Char.ofNat 39 :: (k ++ [Char.ofNat 39])
  | PyExc.other m => m

/-- The `ConfigError` exception (config.py lines 34-59): records the
configuration file path, a `not_found` flag and an error message. -/
structure ConfigError where
  path : PyStr
  not_found : Bool
  error : PyStr
deriving DecidableEq, Repr

/-- `ConfigError.__init__` (config.py lines 46-56): a `ValueError` cause
yields an `Invalid JSON file:` message, a `FileNotFoundError` sets the
`not_found` flag, any other cause is reported via its string form. -/
def ConfigError.init (path : PyStr) (reason : PyExc) : ConfigError :=
  match reason with
  | PyExc.valueError m =>
    { path := path, not_found := false, error := "Invalid JSON file: ".data ++ m }
  | PyExc.fileNotFound =>
    { path := path, not_found := true, error := "File not found".data }
  | e =>
    { path := path, not_found := false, error := pyExcStr e }

/-- A button dictionary as read from JSON: the `press` key may be
absent. -/
structure RawButton where
  «alias» : PyStr
  code : Nat
  press : Option ActionIn
deriving DecidableEq, Repr

/-- An axis dictionary as read from JSON: the `min`/`max` keys may be
absent. -/
structure RawAxis where
  «alias» : PyStr
  code : Nat
  min : Option ActionIn
  max : Option ActionIn
deriving DecidableEq, Repr

/-- A configuration dictionary as read from JSON: any of the keys
`parse` accesses may be absent. -/
structure RawConfig where
  grab : Option Bool
  buttons : Option (List RawButton)
  axes : Option (List RawAxis)
deriving DecidableEq, Repr

/-- Python dictionary subscription: `d[key]` raises `KeyError(key)` when
the key is absent. -/
def getKey (v : Option α) (key : PyStr) : Except PyExc α :=
  match v with
  | some x => Except.ok x
  | none => Except.error (PyExc.keyError key)

/-- The button loop of `parse` over raw dictionaries: accessing a
button's missing `press` key raises. -/
def parseRawButtons : List RawButton → Nat → Except PyExc (List (Nat × Entry) × Nat)
  | [], n => Except.ok ([], n)
  | b :: bs, n => do
    let press ← getKey b.press "press".data
    let r ← parseRawButtons bs (n + 1)
    Except.ok ((b.code, Entry.button b.alias b.code (mkActionOut press n none)) :: r.1, r.2)

/-- The axis loop of `parse` over raw dictionaries: accessing a missing
`min` or `max` key raises, `min` accessed before `max`. -/
def parseRawAxes : List RawAxis → Nat → Except PyExc (List (Nat × Entry) × Nat)
  | [], n => Except.ok ([], n)
  | a :: axs, n => do
    let mn ← getKey a.min "min".data
    let mx ← getKey a.max "max".data
    let r ← parseRawAxes axs (n + 2)
    Except.ok ((a.code, Entry.axis a.alias a.code
      (mkActionOut mn n (some LatchState.up))
      (mkActionOut mx (n + 1) (some LatchState.up))) :: r.1, r.2)

/-- `parse` over a raw configuration dictionary, with Python's key
access order: `grab` (line 227), the `buttons` list and each button's
`press` (lines 229-232), then the `axes` list and each axis's limits
(lines 233-239). -/
def parseRaw (c : RawConfig) : Except PyExc EventMap := do
  let g ← getKey c.grab "grab".data
  let bs ← getKey c.buttons "buttons".data
  let pb ← parseRawButtons bs 0
  let axs ← getKey c.axes "axes".data
  let pa ← parseRawAxes axs pb.2
  Except.ok { grab := g, entries := pb.1 ++ pa.1 }

/-- A fully-populated configuration viewed as a raw dictionary. -/
def rawOfConfig (c : Config) : RawConfig :=
  { grab := some c.grab,
    buttons := some (c.buttons.map fun b =>
      { «alias» := b.alias, code := b.code, press := some b.press }),
    axes := some (c.axes.map fun a =>
      { «alias» := a.alias, code := a.code, min := some a.min, max := some a.max }) }

theorem parseRawButtons_of_total (bs : List ButtonConf) (n : Nat) :
    parseRawButtons (bs.map fun b =>
      { «alias» := b.alias, code := b.code, press := some b.press }) n =
      Except.ok (parseButtons bs n) := by
  induction bs generalizing n with
  | nil => simp [parseRawButtons, parseButtons]
  | cons b bs ih =>
    simp [parseRawButtons, parseButtons, getKey, ih, Bind.bind, Except.bind]

theorem parseRawAxes_of_total (axs : List AxisConf) (n : Nat) :
    parseRawAxes (axs.map fun a =>
      { «alias» := a.alias, code := a.code, min := some a.min, max := some a.max }) n =
      Except.ok (parseAxes axs n) := by
  induction axs generalizing n with
  | nil => simp [parseRawAxes, parseAxes]
  | cons a axs ih =>
    simp [parseRawAxes, parseAxes, getKey, ih, Bind.bind, Except.bind]

theorem parseRaw_rawOfConfig (c : Config) :
    parseRaw (rawOfConfig c) = Except.ok (parse c) := by
  simp [parseRaw, rawOfConfig, getKey, parseRawButtons_of_total, parseRawAxes_of_total,
    parse, Bind.bind, Except.bind]

/-- `load` (config.py lines 168-193): resolve the path, read and parse,
and wrap any exception in a `ConfigError` carrying that path. -/
def load (fs : PyStr → Except PyExc RawConfig) (configDir deviceName name : PyStr) :
    Except ConfigError EventMap :=
  let path := loadPath configDir deviceName name
  match fs path with
  | Except.error exc => Except.error (ConfigError.init path exc)
  | Except.ok raw =>
    match parseRaw raw with
    | Except.error exc => Except.error (ConfigError.init path exc)
    | Except.ok em => Except.ok em

/-- Claim C3: whenever reading or parsing the configuration file fails
with any exception, `load` returns a `ConfigError` that records the
resolved path and classifies the failure: `not_found` is true exactly
for a `FileNotFoundError` cause, a `ValueError` cause yields a message
beginning with `Invalid JSON file:`, and any other cause is reported via
its string form; `load` produces no other kind of error. -/
theorem load_error_classified (fs : PyStr → Except PyExc RawConfig)
    (configDir deviceName name : PyStr) (exc : PyExc)
    (h : fs (loadPath configDir deviceName name) = Except.error exc ∨
      ∃ raw, fs (loadPath configDir deviceName name) = Except.ok raw ∧
        parseRaw raw = Except.error exc) :
    load fs configDir deviceName name =
      Except.error (ConfigError.init (loadPath configDir deviceName name) exc)
    ∧ (ConfigError.init (loadPath configDir deviceName name) exc).path =
        loadPath configDir deviceName name
    ∧ ((ConfigError.init (loadPath configDir deviceName name) exc).not_found = true ↔
        exc = PyExc.fileNotFound)
    ∧ (∀ m, exc = PyExc.valueError m →
        "Invalid JSON file:".data <+:
          (ConfigError.init (loadPath configDir deviceName name) exc).error)
    ∧ ((∀ m, exc ≠ PyExc.valueError m) → exc ≠ PyExc.fileNotFound →
        (ConfigError.init (loadPath configDir deviceName name) exc).error = pyExcStr exc) := by
  refine ⟨?_, ?_, ?_, ?_, ?_⟩
  · rcases h with hf | ⟨raw, hok, hp⟩
    · simp [load, hf]
    · simp [load, hok, hp]
  · cases exc <;> rfl
  · cases exc <;> simp [ConfigError.init]
  · intro m hm
    subst hm
    refine ⟨' ' :: m, ?_⟩
    show "Invalid JSON file:".data ++ (' ' :: m) = "Invalid JSON file: ".data ++ m
    have hstep : "Invalid JSON file:".data ++ [' '] = "Invalid JSON file: ".data := by decide
    calc "Invalid JSON file:".data ++ (' ' :: m)
        = ("Invalid JSON file:".data ++ [' ']) ++ m := by simp
      _ = "Invalid JSON file: ".data ++ m := by rw [hstep]
  · intro hv hn
    cases exc with
    | fileNotFound => exact absurd rfl hn
    | valueError m => exact absurd rfl (hv m)
    | keyError k => rfl
    | other m => rfl

theorem load_error_classified_witness :
    load (fun _ => Except.error PyExc.fileNotFound) ['c'] ['d'] [] =
      Except.error (ConfigError.init (loadPath ['c'] ['d'] []) PyExc.fileNotFound) ∧
    (ConfigError.init (loadPath ['c'] ['d'] []) PyExc.fileNotFound).not_found = true := by
  have h := load_error_classified (fun _ => Except.error PyExc.fileNotFound)
    ['c'] ['d'] [] PyExc.fileNotFound (Or.inl rfl)
  exact ⟨h.1, h.2.2.1.mpr rfl⟩

/-- The `AbsInfo` activator reported for an absolute axis: the raw range
extremes the device reports (the only fields `generate` reads). -/
structure AbsInfo where
  min : Int
  max : Int
deriving DecidableEq, Repr

/-- One group of the verbose capability dictionary
`device.capabilities(verbose=True, absinfo=True)`: a list of
`(event_names, key_code)` pairs under `EV_KEY`, a list of
`((name, code), AbsInfo)` pairs under `EV_ABS`, or a group of any other
event type, which `generate` skips. -/
inductive CapGroup where
  | keys (events : List (List PyStr × Nat))
  | abs (events : List ((PyStr × Nat) × AbsInfo))
  | other
deriving DecidableEq, Repr

/-- Modelled from the spec: `evmapy.util.first_element` (the util module
is not under verification) returns the first element of a list of
aliases, or the value itself when it is not a list. -/
def firstElement (names : List PyStr) : PyStr :=
  names.headD []

/-- The button built by `generate` for one key event (config.py lines
117-129): alias and target from the event name, code from the
activator. -/
def genButton (e : List PyStr × Nat) : ButtonConf :=
  let name := firstElement e.1
  { «alias» := name, code := e.2,
    press := { trigger := "normal".data, type := "exec".data,
               target := "echo ".data ++ name, value := none } }

/-- The axis built by `generate` for one absolute-axis event (config.py
lines 117-144): the base action is copied for both limits, the limit
values come from the activator's extremes and the targets gain a
`' min'` / `' max'` suffix; the code is the second component of the
event-name pair. -/
def genAxis (e : (PyStr × Nat) × AbsInfo) : AxisConf :=
  let name := e.1.1
  let action : ActionIn := { trigger := "normal".data, type := "exec".data,
                             target := "echo ".data ++ name, value := none }
  { «alias» := name, code := e.1.2,
    min := { action with value := some e.2.min, target := action.target ++ " min".data },
    max := { action with value := some e.2.max, target := action.target ++ " max".data } }

/-- `generate` (config.py lines 100-145): the default configuration for
a device, with `grab` false and one button per key event and one axis
per absolute-axis event, in capability order. -/
def generate (caps : List CapGroup) : Config :=
  { grab := false,
    buttons := caps.flatMap (fun g => match g with
      | CapGroup.keys es => es.map genButton
      | _ => []),
    axes := caps.flatMap (fun g => match g with
      | CapGroup.abs es => es.map genAxis
      | _ => []) }

/-- All key events of a capability listing, in order. -/
def keyEvents (caps : List CapGroup) : List (List PyStr × Nat) :=
  caps.flatMap (fun g => match g with | CapGroup.keys es => es | _ => [])

/-- All absolute-axis events of a capability listing, in order. -/
def absEvents (caps : List CapGroup) : List ((PyStr × Nat) × AbsInfo) :=
  caps.flatMap (fun g => match g with | CapGroup.abs es => es | _ => [])

theorem generate_buttons (caps : List CapGroup) :
    (generate caps).buttons = (keyEvents caps).map genButton := by
  simp only [generate, keyEvents, List.map_flatMap]
  congr 1
  funext g
  cases g <;> rfl

theorem generate_axes (caps : List CapGroup) :
    (generate caps).axes = (absEvents caps).map genAxis := by
  simp only [generate, absEvents, List.map_flatMap]
  congr 1
  funext g
  cases g <;> rfl

/-- Claim C9: the default configuration returned by `generate` has
`grab` false; every generated action has trigger `'normal'`, type
`'exec'` and target `'echo '` followed by the control's event name; each
axis's min and max actions carry the device-reported minimum and maximum
raw values, with targets suffixed `' min'` and `' max'`. -/
theorem generate_default (caps : List CapGroup) :
    (generate caps).grab = false
    ∧ (∀ (i : Nat) (b : ButtonConf), (generate caps).buttons[i]? = some b →
        ∃ e, (keyEvents caps)[i]? = some e ∧
          b.alias = firstElement e.1 ∧ b.code = e.2 ∧
          b.press.trigger = "normal".data ∧ b.press.type = "exec".data ∧
          b.press.target = "echo ".data ++ firstElement e.1 ∧ b.press.value = none)
    ∧ (∀ (j : Nat) (a : AxisConf), (generate caps).axes[j]? = some a →
        ∃ e, (absEvents caps)[j]? = some e ∧
          a.alias = e.1.1 ∧ a.code = e.1.2 ∧
          a.min.trigger = "normal".data ∧ a.min.type = "exec".data ∧
          a.max.trigger = "normal".data ∧ a.max.type = "exec".data ∧
          a.min.value = some e.2.min ∧ a.max.value = some e.2.max ∧
          a.min.target = ("echo ".data ++ e.1.1) ++ " min".data ∧
          a.max.target = ("echo ".data ++ e.1.1) ++ " max".data) := by
  refine ⟨rfl, ?_, ?_⟩
  · intro i b hb
    rw [generate_buttons, List.getElem?_map] at hb
    cases he : (keyEvents caps)[i]? with
    | none => rw [he] at hb; cases hb
    | some e =>
      rw [he] at hb
      refine ⟨e, rfl, ?_⟩
      have hbe : b = genButton e := by
        simpa using hb.symm
      subst hbe
      exact ⟨rfl, rfl, rfl, rfl, rfl, rfl⟩
  · intro j a ha
    rw [generate_axes, List.getElem?_map] at ha
    cases he : (absEvents caps)[j]? with
    | none => rw [he] at ha; cases ha
    | some e =>
      rw [he] at ha
      refine ⟨e, rfl, ?_⟩
      have hae : a = genAxis e := by
        simpa using ha.symm
      subst hae
      exact ⟨rfl, rfl, rfl, rfl, rfl, rfl, rfl, rfl, rfl, rfl⟩

/-- A one-key, one-axis capability listing. -/
def smallCaps : List CapGroup :=
  [ CapGroup.keys [([['K']], 30)],
    CapGroup.abs [((['X'], 0), { min := -5, max := 5 })],
    CapGroup.other ]

theorem generate_default_witness :
    (generate smallCaps).grab = false ∧
    ∃ e, (absEvents smallCaps)[0]? = some e ∧
      ∃ a, (generate smallCaps).axes[0]? = some a ∧
        a.min.value = some e.2.min ∧ a.min.value = some (-5) := by
  have h := generate_default smallCaps
  refine ⟨h.1, ?_⟩
  obtain ⟨e, he, _, _, _, _, _, _, hmin, _⟩ :=
    h.2.2 0 (genAxis ((['X'], 0), { min := -5, max := 5 })) (by decide)
  refine ⟨e, he, genAxis ((['X'], 0), { min := -5, max := 5 }), by decide, hmin, ?_⟩
  have : e = ((['X'], 0), ({ min := -5, max := 5 } : AbsInfo)) := by
    have hd : (absEvents smallCaps)[0]? =
        some ((['X'], 0), ({ min := -5, max := 5 } : AbsInfo)) := by decide
    rw [hd] at he
    exact (Option.some.injEq .. ▸ he.symm : _)
  rw [hmin, this]

/-- Claim C8: for every capability listing, the configuration returned
by `generate` is accepted by `parse` without raising (all keys `parse`
accesses are present, including `press` on every button and `min`/`max`
on every axis), and parsing it allocates exactly
`buttons + 2 * axes` distinct action ids, with one button per key event
and one axis per absolute-axis event. -/
theorem generate_parse_compat (caps : List CapGroup) :
    parseRaw (rawOfConfig (generate caps)) = Except.ok (parse (generate caps))
    ∧ allocatedIds (parse (generate caps)) =
        List.range ((generate caps).buttons.length + 2 * (generate caps).axes.length)
    ∧ (allocatedIds (parse (generate caps))).Nodup
    ∧ (generate caps).buttons.length = (keyEvents caps).length
    ∧ (generate caps).axes.length = (absEvents caps).length := by
  refine ⟨parseRaw_rawOfConfig _, allocatedIds_parse _, ?_, ?_, ?_⟩
  · rw [allocatedIds_parse]
    exact List.nodup_range _
  · rw [generate_buttons, List.length_map]
  · rw [generate_axes, List.length_map]

/-- An input device as `create` sees it: its identifying name and its
capability listing (the only attributes `create`/`generate` read). -/
structure Device where
  name : PyStr
  caps : List CapGroup
deriving DecidableEq, Repr

/-- `create` (config.py lines 79-97): opening the device path first
(`None` models the `FileNotFoundError` of a missing device), then
refusing to overwrite an existing default configuration file, and only
otherwise generating and saving one.  The first component is the
returned error string (`none` on success); the second is the performed
save, as the written path and configuration (`none` when nothing is
written). -/
def create (configDir : PyStr) (dev : Option Device) (devPath : PyStr)
    (fileExists : PyStr → Bool) : Option PyStr × Option (PyStr × Config) :=
  match dev with
  | none => (some ("No such device ".data ++ devPath), none)
  | some device =>
    let configPath := get_device_config_path configDir device.name
    if fileExists configPath then
      (some (configPath ++ " already exists, not overwriting".data), none)
    else
      (none, some (configPath, generate device.caps))

/-- Claim C10: `create` never overwrites an existing configuration: a
missing device yields the error `No such device <path>` and no write; an
existing default configuration file yields the error
`<path> already exists, not overwriting` and no write; only when neither
error applies is the generated configuration saved, and success returns
nothing. -/
theorem create_no_overwrite (configDir devPath : PyStr) (fileExists : PyStr → Bool) :
    (create configDir none devPath fileExists =
      (some ("No such device ".data ++ devPath), none))
    ∧ (∀ device : Device,
        fileExists (get_device_config_path configDir device.name) = true →
        create configDir (some device) devPath fileExists =
          (some (get_device_config_path configDir device.name ++
            " already exists, not overwriting".data), none))
    ∧ (∀ device : Device,
        fileExists (get_device_config_path configDir device.name) = false →
        create configDir (some device) devPath fileExists =
          (none, some (get_device_config_path configDir device.name,
            generate device.caps))) := by
  refine ⟨rfl, ?_, ?_⟩
  · intro device hex
    simp [create, hex]
  · intro device hex
    simp [create, hex]

theorem create_no_overwrite_witness :
    create ['c'] (some { name := ['d'], caps := [] }) ['p'] (fun _ => true) =
      (some (get_device_config_path ['c'] ['d'] ++
        " already exists, not overwriting".data), none) :=
  (create_no_overwrite ['c'] ['p'] (fun _ => true)).2.1
    { name := ['d'], caps := [] } rfl

/-- The direction of an emitted semantic transition. -/
inductive Direction where
  | down
  | up
deriving DecidableEq, Repr

/-- Which endpoint of an axis emitted a transition. -/
inductive Endpoint where
  | min
  | max
deriving DecidableEq, Repr

/-- The pair of latch states of one axis's endpoints. -/
structure AxisLatch where
  minLatch : LatchState
  maxLatch : LatchState
deriving DecidableEq, Repr

/-- Modelled from the spec: the hysteresis state machine of the event
source (`evmapy/source.py` is not under verification).  With thresholds
`T_lo = range_min + 0.25 × span` and `T_hi = range_min + 0.75 × span`,
the min endpoint latches down on `v < T_lo` and up on `v ≥ T_lo`, the
max endpoint symmetrically on `v > T_hi` / `v ≤ T_hi`; each endpoint
emits a transition exactly when its latch flips, the min endpoint's
emission preceding the max endpoint's. -/
def hysteresisStep (rangeMin rangeMax : ℚ) (st : AxisLatch) (v : ℚ) :
    AxisLatch × List (Endpoint × Direction) :=
  let tLo := rangeMin + 0.25 * (rangeMax - rangeMin)
  let tHi := rangeMin + 0.75 * (rangeMax - rangeMin)
  let minRes : LatchState × List (Endpoint × Direction) :=
    if v < tLo then
      match st.minLatch with
      | LatchState.up => (LatchState.down, [(Endpoint.min, Direction.down)])
      | LatchState.down => (LatchState.down, [])
    else
      match st.minLatch with
      | LatchState.down => (LatchState.up, [(Endpoint.min, Direction.up)])
      | LatchState.up => (LatchState.up, [])
  let maxRes : LatchState × List (Endpoint × Direction) :=
    if tHi < v then
      match st.maxLatch with
      | LatchState.up => (LatchState.down, [(Endpoint.max, Direction.down)])
      | LatchState.down => (LatchState.down, [])
    else
      match st.maxLatch with
      | LatchState.down => (LatchState.up, [(Endpoint.max, Direction.up)])
      | LatchState.up => (LatchState.up, [])
  (⟨minRes.1, maxRes.1⟩, minRes.2 ++ maxRes.2)

/-- Modelled from the spec: feeding a sequence of raw axis values
through the hysteresis state machine, collecting each step's
emissions. -/
def hysteresisRun (rangeMin rangeMax : ℚ) (st : AxisLatch) (vs : List ℚ) :
    AxisLatch × List (List (Endpoint × Direction)) :=
  match vs with
  | [] => (st, [])
  | v :: rest =>
    let r := hysteresisStep rangeMin rangeMax st v
    let rr := hysteresisRun rangeMin rangeMax r.1 rest
    (rr.1, r.2 :: rr.2)

/-- Claim C7: on an axis with range `[0, 255]` and both latches starting
up, the raw sequence `0, 64, 128, 192, 256, 192, 128, 64` emits exactly
four transitions, in order min-down (at 0), min-up (at 64), max-down
(at 192), max-up (at 128); the first 128 and the final 64 emit
nothing. -/
theorem hysteresis_sequence :
    (hysteresisRun 0 255 ⟨LatchState.up, LatchState.up⟩
      [0, 64, 128, 192, 256, 192, 128, 64]).2 =
      [[(Endpoint.min, Direction.down)],
       [(Endpoint.min, Direction.up)],
       [],
       [(Endpoint.max, Direction.down)],
       [],
       [],
       [(Endpoint.max, Direction.up)],
       []] := by
  norm_num [hysteresisRun, hysteresisStep]
